import Mathlib

/-! Shallow embedding of the missing-value analysis and imputation module of
the repository (src/modules/preprocess/checking_type_of_missing_value.py and
src/modules/preprocess/dealing_with_null.py).

A pandas DataFrame is modelled as an ordered association list of named
columns, each an ordered list of cells; a missing cell (NaN or None, which
pandas isna/isnull treat alike) is `none`, an observed numeric value is
`some q` with `q : ℚ`.  Columns are modelled as numeric: every claim under
study concerns numeric behaviour, and the one dtype test of the source
(select_dtypes / np.issubdtype) is noted where it is embedded.  External
statistical primitives (scipy stats.skew, stats.shapiro, the statsmodels
missing_values_types classifier, the sklearn KNN imputer) are parameters of
the embedding.  A raised Python exception is modelled with `Except String`;
the top-level handle_null_values, which mutates its DataFrame argument in
place for some strategies, returns the final state of that argument
alongside the returned value (or the raised error). -/

abbrev Cell := Option ℚ

abbrev Table := List (String × List Cell)

/-- Decidable equality of embedded call results, used to evaluate the
embedding at concrete inputs. -/
instance exceptDecEq {ε α : Type} [DecidableEq ε] [DecidableEq α] :
    DecidableEq (Except ε α) := fun a b =>
  match a, b with
  | .ok x, .ok y =>
    match decEq x y with
    | isTrue h => isTrue (by rw [h])
    | isFalse h => isFalse (by intro hx; cases hx; exact h rfl)
  | .ok _, .error _ => isFalse (by intro hx; cases hx)
  | .error _, .ok _ => isFalse (by intro hx; cases hx)
  | .error x, .error y =>
    match decEq x y with
    | isTrue h => isTrue (by rw [h])
    | isFalse h => isFalse (by intro hx; cases hx; exact h rfl)

/-- Column labels of the frame, `df.columns`, in order. -/
def names (df : Table) : List String := df.map Prod.fst

/-- Test `series.isnull().any()`: the column holds at least one missing cell. -/
def hasNull (cells : List Cell) : Bool := cells.any fun x => x.isNone

/-- Observed values of a column, `series.dropna()`, order preserved. -/
def obsOf (cells : List Cell) : List ℚ := cells.filterMap id

/-- Embeds `series.mean()`: pandas skips missing cells and yields NaN (here
`none`) when no value is observed. -/
def meanList (cells : List Cell) : Option ℚ :=
  let obs := obsOf cells
  if obs.isEmpty then none else some (obs.sum / (obs.length : ℚ))

/-- Embeds `series.mode()[0]` up to the indexing step: pandas drops missing
cells, collects the most frequent values sorted ascending, so index 0 is the
least value of maximal frequency; the result is `none` (and the `[0]` lookup
raises) exactly when no value is observed. -/
def modeList (cells : List Cell) : Option ℚ :=
  let obs := obsOf cells
  match obs with
  | [] => none
  | x :: _ =>
    some (obs.foldl
      (fun best v =>
        let cb := obs.countP fun w => decide (w = best)
        let cv := obs.countP fun w => decide (w = v)
        if cb < cv then v else if cv = cb ∧ v < best then v else best)
      x)

/-- Insert a value into an ascending-sorted list of rationals. -/
def insertSorted (x : ℚ) : List ℚ → List ℚ
  | [] => [x]
  | y :: ys => if x ≤ y then x :: y :: ys else y :: insertSorted x ys

/-- Ascending sort of a list of rationals. -/
def sortAsc (l : List ℚ) : List ℚ := l.foldr insertSorted []

/-- Embeds `series.median()`: middle observed value, or the average of the two
middle observed values; NaN (`none`) when no value is observed. -/
def medList (cells : List Cell) : Option ℚ :=
  let obs := sortAsc (obsOf cells)
  let n := obs.length
  if n = 0 then none
  else if n % 2 = 1 then some (obs.getD (n / 2) 0)
  else some ((obs.getD (n / 2 - 1) 0 + obs.getD (n / 2) 0) / 2)

/-- Embeds `series.fillna(v, inplace=True)` on the cell list: with `v` a real
value every missing cell becomes `v`; with `v` itself NaN (`none`) pandas
fillna leaves the column unchanged. -/
def fillCells (cells : List Cell) (v : Option ℚ) : List Cell :=
  match v with
  | none => cells
  | some m => cells.map fun x => some (x.getD m)

/-- Embeds `df[c].fillna(v, inplace=True)` at frame level: only the column
named `c` is rewritten. -/
def fillCol (t : Table) (c : String) (v : Option ℚ) : Table :=
  t.map fun nc => (nc.1, if nc.1 = c then fillCells nc.2 v else nc.2)

/-- Replace wholesale the cells of the column named `c` (column assignment). -/
def setCol (t : Table) (c : String) (cells : List Cell) : Table :=
  t.map fun nc => (nc.1, if nc.1 = c then cells else nc.2)

/-- Row predicate of `df.dropna(subset=subset)`: row `i` is kept when every
subset column is observed at `i`. -/
def keepRow (t : Table) (subset : List String) (i : Nat) : Bool :=
  subset.all fun c => (((t.lookup c).getD []).getD i none).isSome

/-- Keep in every column exactly the row positions satisfying `keep`. -/
def dropRows (t : Table) (keep : Nat → Bool) : Table :=
  t.map fun nc => (nc.1, (nc.2.enum.filter fun p => keep p.1).map Prod.snd)

/-- Message of the KeyError pandas raises on a missing column label. -/
def keyErr : String := "KeyError: column label not found"

/-- Message of the lookup error raised by `mode()[0]` on an empty mode. -/
def idxErr : String := "IndexError: index 0 out of bounds on empty mode"

/-- Message of the ValueError raised by check_mcar and analyze_distribution. -/
def valueErr : String := "ValueError: Column not found in DataFrame"

/-- Message of the AttributeError raised at `numeric_cols.empty` (line 140 of
checking_type_of_missing_value.py): `numeric_cols` is a plain Python list,
which has no attribute `empty`. -/
def attrEmptyErr : String := "AttributeError: list object has no attribute empty"

/-- Message of the AttributeError raised at `stats.skew(data)` (line 250 of
checking_type_of_missing_value.py): the local dict named `stats` shadows the
scipy.stats module, and a dict has no attribute `skew`. -/
def dictSkewErr : String := "AttributeError: dict object has no attribute skew"

/-- Embeds `df.dropna(subset=subset, inplace=True)`: KeyError when a subset
label is absent, otherwise drop every row missing in some subset column. -/
def dropnaSubset (t : Table) (subset : List String) : Except String Table :=
  if subset.all fun c => (t.lookup c).isSome then
    .ok (dropRows t (keepRow t subset))
  else .error keyErr

/-- Loop body of the "mean" strategy (dealing_with_null.py lines 35-39) for a
single column: `df[col]` raises KeyError when absent; when the column has a
missing cell it is filled in place with `df[col].mean()`. -/
def meanStep (t : Table) (c : String) : Except String Table :=
  match t.lookup c with
  | none => .error keyErr
  | some cells =>
    if hasNull cells then .ok (fillCol t c (meanList cells)) else .ok t

/-- Loop body of the "mode" strategy (dealing_with_null.py lines 41-45):
`df[column].mode()[0]` raises when the column has no observed value. -/
def modeStep (t : Table) (c : String) : Except String Table :=
  match t.lookup c with
  | none => .error keyErr
  | some cells =>
    if hasNull cells then
      match modeList cells with
      | none => .error idxErr
      | some m => .ok (fillCol t c (some m))
    else .ok t

/-- Loop body of the "median" strategy (dealing_with_null.py lines 47-51). -/
def medianStep (t : Table) (c : String) : Except String Table :=
  match t.lookup c with
  | none => .error keyErr
  | some cells =>
    if hasNull cells then .ok (fillCol t c (medList cells)) else .ok t

/-- Sequential in-place per-column loop shared by the mean, mode and median
strategies: the frame state threads left to right; a raised error aborts the
loop, and the pair carries the frame state reached at that point. -/
def runCols (step : Table → String → Except String Table) :
    Table → List String → Table × Option String
  | t, [] => (t, none)
  | t, c :: cs =>
    match step t c with
    | .ok t2 => runCols step t2 cs
    | .error e => (t, some e)

/-- Embeds MissingValueAnalyzer.check_mcar (checking_type_of_missing_value.py
lines 114-161).  ValueError when the target column is absent; otherwise the
source builds the missing indicator, selects the numeric columns — in this
all-numeric model, all columns — filters the target out into a plain Python
list, and then evaluates `numeric_cols.empty`, which raises AttributeError:
a list has no attribute `empty`.  Neither the t-test loop nor the final
`return True, 1.0` is reachable. -/
def check_mcar (df : Table) (column : String) (sig : ℚ) : Except String (Bool × ℚ) :=
  match df.lookup column with
  | none => .error valueErr
  | some cells =>
    let _missing_indicator : List Nat := cells.map fun x => if x.isNone then 1 else 0
    let num_cols := names df
    let _numeric_cols := num_cols.filter fun c => c ≠ column
    let _sig := sig
    .error attrEmptyErr

/-- Aggregation written at line 156 of checking_type_of_missing_value.py:
`is_mcar = all(p > self.significance_level for p in p_values)`. -/
def is_mcar_of (p_values : List ℚ) (sig : ℚ) : Bool :=
  p_values.all fun p => decide (sig < p)

/-- Aggregation written at line 157 of checking_type_of_missing_value.py:
`min_p_value = min(p_values) if p_values else 1.0`. -/
def min_p_value_of : List ℚ → ℚ
  | [] => 1
  | p :: ps => ps.foldl min p

/-- Binary per-column summary dict of get_missing_stats:
`{"mcar": 0 or 1, "skewness": 0 or 1}`. -/
structure MStats where
  mcar : Nat
  skewness : Nat
deriving DecidableEq

/-- Loop of MissingValueAnalyzer.get_missing_stats (lines 233-257): a column
absent from the frame is silently skipped; for a present column check_mcar is
called — which always raises, see `check_mcar` — and were it to return, the
next statement `stats.skew(data)` would itself raise, because the local dict
named `stats` shadows the scipy.stats module. -/
def get_missing_stats_go (df : Table) (sig : ℚ) :
    List String → Except String (List (String × MStats))
  | [] => .ok []
  | c :: cs =>
    match df.lookup c with
    | none => get_missing_stats_go df sig cs
    | some _cells =>
      match check_mcar df c sig with
      | .error e => .error e
      | .ok _ => .error dictSkewErr

/-- Embeds MissingValueAnalyzer.get_missing_stats (lines 214-257). -/
def get_missing_stats (df : Table) (cols : List String) (sig : ℚ) :
    Except String (List (String × MStats)) :=
  get_missing_stats_go df sig cols

/-- Per-column loop of the "auto" strategy (dealing_with_null.py lines 77-91),
parametric in the profiler output `stats`.  The frame `df` is the original
argument and `dfc` the working copy `df_copy`: the MCAR branch drops rows of
the copy, while the has-missing test, the mode value and the mean value are
all read from `df[column]` — the original frame — and only the fill is applied
to the copy. -/
def autoLoop (df : Table) : Table → List (String × MStats) → Table × Option String
  | dfc, [] => (dfc, none)
  | dfc, (column, s) :: rest =>
    if s.mcar = 1 then
      match dropnaSubset dfc [column] with
      | .error e => (dfc, some e)
      | .ok dfc2 => autoLoop df dfc2 rest
    else
      match df.lookup column with
      | none => (dfc, some keyErr)
      | some cells =>
        if hasNull cells then
          if s.skewness = 1 then
            match modeList cells with
            | none => (dfc, some idxErr)
            | some m =>
              match dfc.lookup column with
              | none => (dfc, some keyErr)
              | some _ => autoLoop df (fillCol dfc column (some m)) rest
          else
            match dfc.lookup column with
            | none => (dfc, some keyErr)
            | some _ => autoLoop df (fillCol dfc column (meanList cells)) rest
        else autoLoop df dfc rest

/-- Embeds `check_columns_exist` (lines 36-49): the requested labels that are
not columns of the frame. -/
def check_columns_exist (df : Table) (cols : List String) : List String :=
  cols.filter fun c => (df.lookup c).isNone

/-- Python dict assignment `results[k] = v`: overwrite in place when the key
exists, otherwise append, preserving insertion order. -/
def dictInsert (m : List (String × String)) (k v : String) : List (String × String) :=
  if m.any fun e => e.1 == k then
    m.map fun e => (e.1, if e.1 = k then v else e.2)
  else m ++ [(k, v)]

/-- Loop of check_missing_value_types (lines 104-110): a label listed in
`missing` records "Column not found"; otherwise the external statsmodels
classifier `mvt` (analyze_single_column, line 64) is consulted and the third
component of its triple is recorded. -/
def cmvtLoop (mvt : List Cell → ℚ × ℚ × String) (df : Table) (missing : List String) :
    List String → List (String × String) → List (String × String)
  | [], results => results
  | c :: cs, results =>
    if c ∈ missing then
      cmvtLoop mvt df missing cs (dictInsert results c "Column not found")
    else
      cmvtLoop mvt df missing cs (dictInsert results c (mvt ((df.lookup c).getD [])).2.2)

/-- Embeds MissingValueAnalyzer.check_missing_value_types (lines 66-112). -/
def check_missing_value_types (mvt : List Cell → ℚ × ℚ × String) (df : Table)
    (column_names : Option (List String)) : List (String × String) :=
  let cols := column_names.getD (names df)
  let missing_columns := check_columns_exist df cols
  cmvtLoop mvt df missing_columns cols []

/-- Result dict of analyze_distribution for a numeric column. -/
structure DistProfile where
  skewness : ℚ
  is_normal : Bool
  shapiro_stat : ℚ
  shapiro_p : ℚ
  distribution_type : String
deriving DecidableEq

/-- Embeds MissingValueAnalyzer.analyze_distribution (lines 163-212) for
numeric columns (the all-numeric model takes the `np.issubdtype` branch for
granted), with the external scipy primitives `stats.skew` and `stats.shapiro`
as the parameters `skewFn` and `shapiroFn`. -/
def analyze_distribution (skewFn : List ℚ → ℚ) (shapiroFn : List ℚ → ℚ × ℚ)
    (df : Table) (column : String) (sig : ℚ) : Except String DistProfile :=
  match df.lookup column with
  | none => .error valueErr
  | some cells =>
    let data := obsOf cells
    let skewness := skewFn data
    let sh := shapiroFn data
    let is_normal : Bool := decide (sig < sh.2)
    let dist_type : String :=
      if is_normal then "normal"
      else if |skewness| < 1/2 then "approximately symmetric"
      else if skewness < 0 then "left-skewed"
      else "right-skewed"
    .ok ⟨skewness, is_normal, sh.1, sh.2, dist_type⟩

/-- Column list the strategies iterate over (dealing_with_null.py line 33):
`column_names if column_names is not None else df.columns`. -/
def columns_to_process (df : Table) (column_names : Option (List String)) : List String :=
  column_names.getD (names df)

/-- Columns of the sub-frame `df[cs]` taken for the KNN imputer. -/
def selectCols (df : Table) (cs : List String) : Table :=
  cs.map fun c => (c, (df.lookup c).getD [])

/-- Write the KNN-imputed sub-frame back, `df[cs] = imputed`. -/
def knnAssign (df : Table) (cs : List String) (imputed : Table) : Table :=
  cs.foldl (fun t c => setCol t c ((imputed.lookup c).getD [])) df

/-- Pair a loop outcome with the Python return value: the returned frame is
the (mutated) argument itself on success, and the raise carries no value. -/
def finish : Table × Option String → Table × Except String Table
  | (t, none) => (t, .ok t)
  | (t, some e) => (t, .error e)

/-- Embeds handle_null_values (dealing_with_null.py lines 6-95), parametric in
the external sklearn KNN imputer.  The first component of the result is the
state of the caller's DataFrame object after the call (those strategies that
impute mutate it in place), the second the returned frame or the raised
error.  The "auto" branch builds a MissingValueAnalyzer with the default
significance level 0.05, profiles the processed columns, copies the frame and
runs the per-column auto loop on the copy. -/
def handle_null_values (knn : Table → Table) (df : Table) (strategy : String)
    (column_names : Option (List String)) : Table × Except String Table :=
  let cols := columns_to_process df column_names
  if strategy = "mean" then finish (runCols meanStep df cols)
  else if strategy = "mode" then finish (runCols modeStep df cols)
  else if strategy = "median" then finish (runCols medianStep df cols)
  else if strategy = "drop" then
    match column_names with
    | none => finish (dropRows df (keepRow df (names df)), none)
    | some cs =>
      match dropnaSubset df cs with
      | .ok t => (t, .ok t)
      | .error e => (df, .error e)
  else if strategy = "KNN" then
    match column_names with
    | none => let t := knn df; (t, .ok t)
    | some cs =>
      if cs.all fun c => (df.lookup c).isSome then
        let t := knnAssign df cs (knn (selectCols df cs))
        (t, .ok t)
      else (df, .error keyErr)
  else if strategy = "auto" then
    match get_missing_stats df cols (1/20) with
    | .error e => (df, .error e)
    | .ok ms =>
      match autoLoop df df ms with
      | (dfc, none) => (df, .ok dfc)
      | (_, some e) => (df, .error e)
  else (df, .ok df)

/-- Test that an embedded call raised an exception rather than returning. -/
def raises {α : Type} : Except String α → Bool
  | .ok _ => false
  | .error _ => true

/-! Helper lemmas about the embedded frame operations. -/

theorem lookup_map_entry {β : Type} (g : String → β → β) (c : String) :
    ∀ t : List (String × β),
      (t.map fun nc => (nc.1, g nc.1 nc.2)).lookup c = (t.lookup c).map (g c) := by
  intro t
  induction t with
  | nil => rfl
  | cons nc t ih =>
    obtain ⟨k, cl⟩ := nc
    by_cases h : c = k
    · subst h
      simp [List.lookup]
    · have hb : (c == k) = false := by simp [beq_iff_eq, h]
      simp [List.lookup, hb, ih]

theorem lookup_fillCol_self (t : Table) (c : String) (v : Option ℚ) :
    (fillCol t c v).lookup c = (t.lookup c).map (fillCells · v) := by
  have h := lookup_map_entry (fun k cl => if k = c then fillCells cl v else cl) c t
  simpa [fillCol] using h

theorem lookup_fillCol_ne (t : Table) (c c2 : String) (v : Option ℚ) (h : c2 ≠ c) :
    (fillCol t c v).lookup c2 = t.lookup c2 := by
  have h2 := lookup_map_entry (fun k cl => if k = c then fillCells cl v else cl) c2 t
  simp only [if_neg h] at h2
  have h3 : (t.lookup c2).map (fun cl => cl) = t.lookup c2 := by
    cases t.lookup c2 <;> rfl
  simpa [fillCol, h3] using h2

theorem lookup_dropRows (t : Table) (c : String) (keep : Nat → Bool) :
    (dropRows t keep).lookup c
      = (t.lookup c).map fun cl => (cl.enum.filter fun p => keep p.1).map Prod.snd := by
  exact lookup_map_entry (fun _ cl => (cl.enum.filter fun p => keep p.1).map Prod.snd) c t

theorem fillCells_of_no_null (cells : List Cell) (h : hasNull cells = false) (v : Option ℚ) :
    fillCells cells v = cells := by
  cases v with
  | none => rfl
  | some m =>
    induction cells with
    | nil => rfl
    | cons x xs ih =>
      simp only [hasNull, List.any_cons, Bool.or_eq_false_iff] at h
      obtain ⟨hx, hxs⟩ := h
      cases x with
      | none => simp at hx
      | some a =>
        have h2 := ih (by simpa [hasNull] using hxs)
        simpa [fillCells] using h2

theorem hasNull_fillCells_some (cells : List Cell) (m : ℚ) :
    hasNull (fillCells cells (some m)) = false := by
  simp [hasNull, fillCells, List.any_eq_false]

theorem meanList_of_obs_ne_nil (cells : List Cell) (h : obsOf cells ≠ []) :
    meanList cells = some ((obsOf cells).sum / ((obsOf cells).length : ℚ)) := by
  simp only [meanList]
  rw [if_neg (by simpa [List.isEmpty_iff] using h)]

theorem modeList_of_obs_nil (cells : List Cell) (h : obsOf cells = []) :
    modeList cells = none := by
  simp only [modeList, h]

theorem modeList_of_obs_ne_nil (cells : List Cell) (h : obsOf cells ≠ []) :
    (modeList cells).isSome = true := by
  simp only [modeList]
  cases hobs : obsOf cells with
  | nil => exact absurd hobs h
  | cons x xs => simp

theorem check_mcar_present_eq (df : Table) (c : String) (sig : ℚ)
    (h : (df.lookup c).isSome = true) : check_mcar df c sig = .error attrEmptyErr := by
  cases heq : df.lookup c with
  | none => rw [heq] at h; simp at h
  | some cells => simp [check_mcar, heq]

theorem gms_go_spec (df : Table) (sig : ℚ) (cols : List String) :
    (∀ c ∈ cols, (df.lookup c).isSome = true →
        get_missing_stats_go df sig cols = .error attrEmptyErr) ∧
    (∀ m, get_missing_stats_go df sig cols = .ok m →
        m = [] ∧ ∀ c ∈ cols, df.lookup c = none) := by
  induction cols with
  | nil => simp [get_missing_stats_go]
  | cons c0 cs ih =>
    cases heq : df.lookup c0 with
    | none =>
      constructor
      · intro c hc hcs
        rcases List.mem_cons.mp hc with rfl | hc2
        · rw [heq] at hcs; simp at hcs
        · have h2 := ih.1 c hc2 hcs
          simpa [get_missing_stats_go, heq] using h2
      · intro m hm
        simp only [get_missing_stats_go, heq] at hm
        obtain ⟨h1, h2⟩ := ih.2 m hm
        refine ⟨h1, fun c hc => ?_⟩
        rcases List.mem_cons.mp hc with rfl | hc2
        · exact heq
        · exact h2 c hc2
    | some cells =>
      have hcm : check_mcar df c0 sig = .error attrEmptyErr :=
        check_mcar_present_eq df c0 sig (by rw [heq]; rfl)
      constructor
      · intro c hc hcs
        simp [get_missing_stats_go, heq, hcm]
      · intro m hm
        simp [get_missing_stats_go, heq, hcm] at hm

theorem foldl_min_gt (sig : ℚ) (ps : List ℚ) :
    ∀ a : ℚ, (sig < ps.foldl min a) ↔ (sig < a ∧ ∀ p ∈ ps, sig < p) := by
  induction ps with
  | nil => simp
  | cons q qs ih =>
    intro a
    simp only [List.foldl_cons]
    rw [ih (min a q)]
    constructor
    · rintro ⟨h1, h2⟩
      rw [lt_min_iff] at h1
      refine ⟨h1.1, fun p hp => ?_⟩
      rcases List.mem_cons.mp hp with rfl | hp2
      · exact h1.2
      · exact h2 p hp2
    · rintro ⟨h1, h2⟩
      exact ⟨lt_min_iff.mpr ⟨h1, h2 q (by simp)⟩, fun p hp => h2 p (by simp [hp])⟩

/-- Claim C1 (code bug): the spec, the docstring of handle_null_values and the
comments of its auto branch all promise that strategy "auto" profiles the
targeted columns and returns a modified independent copy; in the code, for any
table that has at least one targeted column, get_missing_stats reaches
check_mcar, which raises AttributeError at the dead expression
numeric_cols.empty, so the auto branch raises instead of returning a copy.
This theorem evaluates the embedded code at the failing input of the spec
scenario (column X all missing, skewed column Y with a missing cell): the
call raises, and the caller's table is left untouched (first component). -/
theorem auto_strategy_raises_on_present_columns :
    handle_null_values (fun t => t)
        [("X", [none, none, none]), ("Y", [some 1, none, some 5])] "auto" none
      = ([("X", [none, none, none]), ("Y", [some 1, none, some 5])],
         .error attrEmptyErr) := by
  rfl

/-- Claim C2: for every column present in the frame, check_mcar raises the
AttributeError caused by evaluating numeric_cols.empty on a plain Python
list; consequently get_missing_stats raises as soon as a requested column
exists, and it returns normally only with the empty mapping, exactly when
every requested column is absent from the frame.  (The further slip that the
local dict named stats shadows scipy.stats is embedded in
get_missing_stats_go, behind the check_mcar raise.) -/
theorem check_mcar_and_get_missing_stats_raise (df : Table) (cols : List String) (sig : ℚ) :
    (∀ c, (df.lookup c).isSome = true → check_mcar df c sig = .error attrEmptyErr) ∧
    (∀ c ∈ cols, (df.lookup c).isSome = true →
        get_missing_stats df cols sig = .error attrEmptyErr) ∧
    (∀ m, get_missing_stats df cols sig = .ok m →
        m = [] ∧ ∀ c ∈ cols, df.lookup c = none) := by
  refine ⟨fun c hc => check_mcar_present_eq df c sig hc, ?_, ?_⟩
  · exact (gms_go_spec df sig cols).1
  · exact (gms_go_spec df sig cols).2

theorem check_mcar_and_get_missing_stats_raise_witness :
    check_mcar [("a", [some 1])] "a" (1/20) = .error attrEmptyErr ∧
    get_missing_stats [("a", [some 1])] ["a"] (1/20) = .error attrEmptyErr := by
  have h := check_mcar_and_get_missing_stats_raise [("a", [some 1])] ["a"] (1/20)
  exact ⟨h.1 "a" rfl, h.2.1 "a" (by simp) rfl⟩

/-- Claim C3 (code bug): the spec and the comment at line 161 of
checking_type_of_missing_value.py promise that with no numeric covariate
besides the target, check_mcar returns (True, 1.0) without testing; the code
instead raises AttributeError before either return statement, because
numeric_cols is a plain Python list and list has no attribute empty.  The
theorem evaluates the embedded code at a one-column frame, the failing
input. -/
theorem check_mcar_no_numeric_covariates_raises :
    check_mcar [("x", [some 1, none])] "x" (1/20) = .error attrEmptyErr := by
  rfl

/-- Claim C4: in the aggregation written at lines 156-157 of
checking_type_of_missing_value.py, is_mcar is false whenever some recorded
p-value is at most the significance level; with at least one recorded test,
is_mcar holds iff the minimum recorded p-value exceeds the level; with zero
recorded tests min_p_value is 1.0 and is_mcar is vacuously true, so for any
genuine significance level (below 1) the same iff holds unconditionally. -/
theorem mcar_aggregation_matches_min_p (p_values : List ℚ) (sig : ℚ) :
    ((∃ p ∈ p_values, p ≤ sig) → is_mcar_of p_values sig = false) ∧
    (p_values ≠ [] →
      (is_mcar_of p_values sig = true ↔ sig < min_p_value_of p_values)) ∧
    (p_values = [] →
      is_mcar_of p_values sig = true ∧ min_p_value_of p_values = 1) ∧
    (sig < 1 →
      (is_mcar_of p_values sig = true ↔ sig < min_p_value_of p_values)) := by
  have hall : is_mcar_of p_values sig = true ↔ ∀ p ∈ p_values, sig < p := by
    simp [is_mcar_of, List.all_eq_true]
  have hiff : p_values ≠ [] →
      (is_mcar_of p_values sig = true ↔ sig < min_p_value_of p_values) := by
    intro hne
    cases p_values with
    | nil => exact absurd rfl hne
    | cons q qs =>
      rw [hall]
      simp only [min_p_value_of]
      rw [foldl_min_gt sig qs q]
      constructor
      · intro h
        exact ⟨h q (by simp), fun p hp => h p (by simp [hp])⟩
      · rintro ⟨h1, h2⟩ p hp
        rcases List.mem_cons.mp hp with rfl | hp2
        · exact h1
        · exact h2 p hp2
  refine ⟨?_, hiff, ?_, ?_⟩
  · rintro ⟨p, hp, hle⟩
    rw [Bool.eq_false_iff]
    intro htrue
    exact absurd (hall.mp htrue p hp) (not_lt.mpr hle)
  · rintro rfl
    exact ⟨rfl, rfl⟩
  · intro hs
    cases hp : p_values with
    | nil =>
      subst hp
      simp only [min_p_value_of]
      exact iff_of_true (by rfl) hs
    | cons q qs =>
      subst hp
      exact hiff (by simp)

theorem mcar_aggregation_matches_min_p_witness :
    (is_mcar_of [(1 : ℚ)/10, 1/2] (1/20) = true ↔
      (1 : ℚ)/20 < min_p_value_of [(1 : ℚ)/10, 1/2]) :=
  (mcar_aggregation_matches_min_p [(1 : ℚ)/10, 1/2] (1/20)).2.1 (by decide)

/-- Claim C6: a strategy string outside the six recognized values falls
through every branch of handle_null_values, which returns the table unchanged
and raises nothing, and mutates nothing (first component unchanged). -/
theorem unknown_strategy_passthrough (knn : Table → Table) (df : Table)
    (strategy : String) (column_names : Option (List String))
    (h : strategy ∉ (["mean", "mode", "median", "drop", "KNN", "auto"] : List String)) :
    handle_null_values knn df strategy column_names = (df, .ok df) := by
  simp only [List.mem_cons, List.not_mem_nil, or_false, not_or] at h
  obtain ⟨h1, h2, h3, h4, h5, h6⟩ := h
  simp [handle_null_values, h1, h2, h3, h4, h5, h6]

theorem unknown_strategy_passthrough_witness :
    handle_null_values (fun t => t) [("A", [some 1, none])] "Mean" none
      = ([("A", [some 1, none])], .ok [("A", [some 1, none])]) :=
  unknown_strategy_passthrough (fun t => t) [("A", [some 1, none])] "Mean" none
    (by decide)


theorem any_key_eq_lookup_isSome (k : String) :
    ∀ m : List (String × String), (m.any fun e => e.1 == k) = (m.lookup k).isSome := by
  intro m
  induction m with
  | nil => rfl
  | cons e es ih =>
    by_cases h : e.1 = k
    · have hb : (k == e.1) = true := by simp [beq_iff_eq, h]
      simp [List.any_cons, List.lookup, h, hb]
    · have hb : (k == e.1) = false := by
        rw [beq_eq_false_iff_ne]
        exact fun hx => h hx.symm
      have hb2 : (e.1 == k) = false := by simp [beq_iff_eq, h]
      simp [List.any_cons, List.lookup, hb, hb2, ih]

theorem lookup_append_of_none (k : String) (l2 : List (String × String)) :
    ∀ m : List (String × String), m.lookup k = none →
      (m ++ l2).lookup k = l2.lookup k := by
  intro m
  induction m with
  | nil => intro h; rfl
  | cons e es ih =>
    intro h
    by_cases he : k = e.1
    · simp [List.lookup, he] at h
    · have hb : (k == e.1) = false := by simp [beq_iff_eq, he]
      simp only [List.lookup, hb] at h
      simpa [List.lookup, hb] using ih h

theorem lookup_append_single_ne (k v k2 : String) (h : k2 ≠ k) :
    ∀ m : List (String × String), (m ++ [(k, v)]).lookup k2 = m.lookup k2 := by
  intro m
  induction m with
  | nil =>
    have hb : (k2 == k) = false := by simp [beq_iff_eq, h]
    simp [List.lookup, hb]
  | cons e es ih =>
    by_cases he : k2 = e.1
    · simp [List.lookup, he]
    · have hb : (k2 == e.1) = false := by simp [beq_iff_eq, he]
      simpa [List.lookup, hb] using ih

theorem dictInsert_lookup_self (m : List (String × String)) (k v : String) :
    (dictInsert m k v).lookup k = some v := by
  by_cases hany : (m.any fun e => e.1 == k) = true
  · have hsome : (m.lookup k).isSome = true := by rw [← any_key_eq_lookup_isSome]; exact hany
    have hmap := lookup_map_entry (fun k0 v0 => if k0 = k then v else v0) k m
    simp only [dictInsert, if_pos hany]
    rw [hmap]
    cases hlk : m.lookup k with
    | none => rw [hlk] at hsome; simp at hsome
    | some w => simp
  · have hf : (m.any fun e => e.1 == k) = false := by
      cases hx : m.any fun e => e.1 == k
      · rfl
      · exact absurd hx hany
    have hnone : m.lookup k = none := by
      have := any_key_eq_lookup_isSome k m
      rw [hf] at this
      cases hlk : m.lookup k with
      | none => rfl
      | some w => rw [hlk] at this; simp at this
    simp only [dictInsert, if_neg hany]
    rw [lookup_append_of_none k [(k, v)] m hnone]
    simp [List.lookup]

theorem dictInsert_lookup_ne (m : List (String × String)) (k v k2 : String)
    (h : k2 ≠ k) : (dictInsert m k v).lookup k2 = m.lookup k2 := by
  by_cases hany : (m.any fun e => e.1 == k) = true
  · have hmap := lookup_map_entry (fun k0 v0 => if k0 = k then v else v0) k2 m
    simp only [dictInsert, if_pos hany]
    rw [hmap]
    simp only [if_neg h]
    cases m.lookup k2 <;> rfl
  · simp only [dictInsert, if_neg hany]
    exact lookup_append_single_ne k v k2 h m

theorem cmvtLoop_lookup_cnf (mvt : List Cell → ℚ × ℚ × String) (df : Table)
    (missing : List String) (c : String) (hcm : c ∈ missing) :
    ∀ (cs : List String) (res : List (String × String)),
      (c ∈ cs ∨ res.lookup c = some "Column not found") →
      (cmvtLoop mvt df missing cs res).lookup c = some "Column not found" := by
  intro cs
  induction cs with
  | nil =>
    intro res h
    rcases h with h | h
    · simp at h
    · simpa [cmvtLoop] using h
  | cons c0 cs ih =>
    intro res h
    by_cases hc : c0 = c
    · subst hc
      simp only [cmvtLoop, if_pos hcm]
      exact ih _ (Or.inr (dictInsert_lookup_self res c0 "Column not found"))
    · have hne : c ≠ c0 := fun hx => hc hx.symm
      have hmem2 : c ∈ cs ∨ res.lookup c = some "Column not found" → True := fun _ => trivial
      rcases h with h | h
      · have h2 : c ∈ cs := by
          rcases List.mem_cons.mp h with rfl | h3
          · exact absurd rfl hc
          · exact h3
        by_cases hm0 : c0 ∈ missing
        · simp only [cmvtLoop, if_pos hm0]
          exact ih _ (Or.inl h2)
        · simp only [cmvtLoop, if_neg hm0]
          exact ih _ (Or.inl h2)
      · by_cases hm0 : c0 ∈ missing
        · simp only [cmvtLoop, if_pos hm0]
          refine ih _ (Or.inr ?_)
          rw [dictInsert_lookup_ne res c0 "Column not found" c hne]
          exact h
        · simp only [cmvtLoop, if_neg hm0]
          refine ih _ (Or.inr ?_)
          rw [dictInsert_lookup_ne res c0 (mvt ((df.lookup c0).getD [])).2.2 c hne]
          exact h

/-- Claim C5: a requested column name absent from the frame is mapped by
check_missing_value_types to the in-band verdict "Column not found" without
raising, while get_missing_stats omits the name from its result mapping
entirely whenever it returns one (silent skip). -/
theorem absent_column_classifier_vs_profiler (df : Table) (cols : List String)
    (c : String) (mvt : List Cell → ℚ × ℚ × String) (sig : ℚ)
    (habs : df.lookup c = none) (hmem : c ∈ cols) :
    (check_missing_value_types mvt df (some cols)).lookup c = some "Column not found" ∧
    (∀ m, get_missing_stats df cols sig = .ok m → m.lookup c = none) := by
  constructor
  · have hmiss : c ∈ check_columns_exist df cols := by
      simp [check_columns_exist, List.mem_filter, hmem, habs]
    exact cmvtLoop_lookup_cnf mvt df (check_columns_exist df cols) c hmiss cols []
      (Or.inl hmem)
  · intro m hm
    obtain ⟨rfl, -⟩ := (gms_go_spec df sig cols).2 m hm
    rfl

theorem absent_column_classifier_vs_profiler_witness :
    (check_missing_value_types (fun _ => ((0 : ℚ), (0 : ℚ), "Both"))
        [("a", [some 1])] (some ["zz"])).lookup "zz" = some "Column not found" ∧
    (∀ m, get_missing_stats [("a", [some 1])] ["zz"] (1/20) = .ok m →
        m.lookup "zz" = none) :=
  absent_column_classifier_vs_profiler [("a", [some 1])] ["zz"] "zz"
    (fun _ => ((0 : ℚ), (0 : ℚ), "Both")) (1/20) rfl (by simp)

/-- Claim C7: whenever analyze_distribution returns a profile for a numeric
column, the distribution_type is "normal" exactly when the Shapiro-Wilk
p-value exceeds the significance level, regardless of skewness; otherwise it
is "approximately symmetric" when the absolute skewness is below 0.5, and
else "left-skewed" for negative skewness and "right-skewed" for positive
skewness. -/
theorem distribution_type_classification (skewFn : List ℚ → ℚ)
    (shapiroFn : List ℚ → ℚ × ℚ) (df : Table) (column : String) (sig : ℚ)
    (prof : DistProfile)
    (h : analyze_distribution skewFn shapiroFn df column sig = .ok prof) :
    (sig < prof.shapiro_p → prof.distribution_type = "normal") ∧
    (prof.shapiro_p ≤ sig →
      ((|prof.skewness| < 1/2 → prof.distribution_type = "approximately symmetric") ∧
       (1/2 ≤ |prof.skewness| →
         (prof.skewness < 0 → prof.distribution_type = "left-skewed") ∧
         (0 < prof.skewness → prof.distribution_type = "right-skewed")))) := by
  cases heq : df.lookup column with
  | none => rw [analyze_distribution, heq] at h; cases h
  | some cells =>
    rw [analyze_distribution, heq] at h
    simp only [Except.ok.injEq] at h
    subst h
    constructor
    · intro hp
      simp only [decide_eq_true_eq]
      rw [if_pos (by simpa using hp)]
    · intro hp
      have hcond : ¬ (decide (sig < (shapiroFn (obsOf cells)).2) = true) := by
        simp [not_lt.mpr hp]
      constructor
      · intro hskew
        rw [if_neg hcond, if_pos (by simpa using hskew)]
      · intro hskew
        constructor
        · intro hneg
          rw [if_neg hcond, if_neg (by simpa using not_lt.mpr hskew), if_pos (by simpa using hneg)]
        · intro hpos
          rw [if_neg hcond, if_neg (by simpa using not_lt.mpr hskew),
            if_neg (by simpa using not_lt.mpr (le_of_lt hpos))]

theorem distribution_type_classification_witness :
    DistProfile.distribution_type ⟨2, true, 1, 1/10, "normal"⟩ = "normal" := by
  have hok : analyze_distribution (fun _ => 2) (fun _ => (1, 1/10))
      [("a", [some 1, some 2])] "a" (1/20)
      = .ok ⟨2, true, 1, 1/10, "normal"⟩ := by
    simp only [analyze_distribution, List.lookup, beq_self_eq_true]
    norm_num
  have h := distribution_type_classification (fun _ => 2) (fun _ => (1, 1/10))
    [("a", [some 1, some 2])] "a" (1/20) ⟨2, true, 1, 1/10, "normal"⟩ hok
  exact h.1 (by norm_num)

theorem meanStep_pres (t t2 : Table) (c0 c : String) (h : meanStep t c0 = .ok t2)
    (hne : c ≠ c0) : t2.lookup c = t.lookup c := by
  cases hlk : t.lookup c0 with
  | none => simp only [meanStep, hlk] at h; exact Except.noConfusion h
  | some cells =>
    simp only [meanStep, hlk] at h
    by_cases hn : hasNull cells
    · rw [if_pos hn] at h
      cases h
      exact lookup_fillCol_ne t c0 c (meanList cells) hne
    · rw [if_neg hn] at h
      cases h
      rfl

theorem runCols_mean_filled (cells0 : List Cell) (c : String)
    (hobs : obsOf cells0 ≠ []) :
    ∀ (cs : List String) (t : Table),
      t.lookup c = some (fillCells cells0 (meanList cells0)) →
      (runCols meanStep t cs).2 = none →
      ((runCols meanStep t cs).1).lookup c
        = some (fillCells cells0 (meanList cells0)) := by
  intro cs
  induction cs with
  | nil =>
    intro t h _
    simpa [runCols] using h
  | cons c0 cs ih =>
    intro t h hok
    by_cases hc : c0 = c
    · subst hc
      have hnn : hasNull (fillCells cells0 (meanList cells0)) = false := by
        rw [meanList_of_obs_ne_nil cells0 hobs]
        exact hasNull_fillCells_some cells0 _
      have hstep : meanStep t c0 = .ok t := by
        simp [meanStep, h, hnn]
      simp only [runCols, hstep] at hok ⊢
      exact ih t h hok
    · have hne : c ≠ c0 := fun hx => hc hx.symm
      cases hstep : meanStep t c0 with
      | error e => simp [runCols, hstep] at hok
      | ok t2 =>
        have hpres := meanStep_pres t t2 c0 c hstep hne
        simp only [runCols, hstep] at hok ⊢
        exact ih t2 (by rw [hpres]; exact h) hok

theorem runCols_mean_processes (cells0 : List Cell) (c : String)
    (hobs : obsOf cells0 ≠ []) :
    ∀ (cs : List String) (t : Table),
      t.lookup c = some cells0 → c ∈ cs →
      (runCols meanStep t cs).2 = none →
      ((runCols meanStep t cs).1).lookup c
        = some (fillCells cells0 (meanList cells0)) := by
  intro cs
  induction cs with
  | nil =>
    intro t _ h
    simp at h
  | cons c0 cs ih =>
    intro t hl hmem hok
    by_cases hc : c0 = c
    · subst hc
      by_cases hn : hasNull cells0
      · have hstep : meanStep t c0 = .ok (fillCol t c0 (meanList cells0)) := by
          simp [meanStep, hl, hn]
        have hl2 : (fillCol t c0 (meanList cells0)).lookup c0
            = some (fillCells cells0 (meanList cells0)) := by
          rw [lookup_fillCol_self, hl]
          rfl
        simp only [runCols, hstep] at hok ⊢
        exact runCols_mean_filled cells0 c0 hobs cs _ hl2 hok
      · have hstep : meanStep t c0 = .ok t := by
          simp [meanStep, hl, hn]
        have hfc : fillCells cells0 (meanList cells0) = cells0 :=
          fillCells_of_no_null cells0 (by simpa using hn) _
        simp only [runCols, hstep] at hok ⊢
        exact runCols_mean_filled cells0 c0 hobs cs t (by rw [hfc]; exact hl) hok
    · have hne : c ≠ c0 := fun hx => hc hx.symm
      have hmem2 : c ∈ cs := by
        rcases List.mem_cons.mp hmem with rfl | h2
        · exact absurd rfl hc
        · exact h2
      cases hstep : meanStep t c0 with
      | error e => simp [runCols, hstep] at hok
      | ok t2 =>
        have hpres := meanStep_pres t t2 c0 c hstep hne
        simp only [runCols, hstep] at hok ⊢
        exact ih t2 (by rw [hpres]; exact hl) hmem2 hok

/-- Claim C8: after the "mean" strategy returns, every targeted column that
existed and had at least one observed value holds no missing cell, and each
previously missing cell of that column holds the arithmetic mean of the
column's observed values as they were at the time of the call (the strategy
rewrites only the column being processed, so the statistic of each column is
taken over its original cells). -/
theorem mean_strategy_fills_with_mean (knn : Table → Table) (df : Table)
    (column_names : Option (List String)) (c : String) (cells0 : List Cell)
    (taux t2 : Table)
    (hrun : handle_null_values knn df "mean" column_names = (taux, .ok t2))
    (hc : c ∈ columns_to_process df column_names)
    (hcol : df.lookup c = some cells0)
    (hobs : obsOf cells0 ≠ []) :
    ∃ cellsF, t2.lookup c = some cellsF ∧
      (∀ x ∈ cellsF, x.isSome = true) ∧
      ∀ i : Nat, cells0[i]? = some none →
        cellsF[i]?
          = some (some ((obsOf cells0).sum / ((obsOf cells0).length : ℚ))) := by
  have heq : handle_null_values knn df "mean" column_names
      = finish (runCols meanStep df (columns_to_process df column_names)) := rfl
  rw [heq] at hrun
  cases hres : runCols meanStep df (columns_to_process df column_names) with
  | mk t1 e1 =>
    rw [hres] at hrun
    cases e1 with
    | some e => simp [finish] at hrun
    | none =>
      simp only [finish, Prod.mk.injEq, Except.ok.injEq] at hrun
      obtain ⟨-, rfl⟩ := hrun
      have hmain := runCols_mean_processes cells0 c hobs
        (columns_to_process df column_names) df hcol hc (by rw [hres])
      rw [hres] at hmain
      refine ⟨fillCells cells0 (meanList cells0), hmain, ?_, ?_⟩
      · intro x hx
        rw [meanList_of_obs_ne_nil cells0 hobs] at hx
        simp only [fillCells, List.mem_map] at hx
        obtain ⟨y, -, rfl⟩ := hx
        rfl
      · intro i hi
        rw [meanList_of_obs_ne_nil cells0 hobs]
        simp only [fillCells]
        rw [List.getElem?_map, hi]
        rfl

theorem mean_strategy_fills_with_mean_witness :
    ∃ cellsF,
      List.lookup "A" [("A", [some (1 : ℚ), some 2, some 3])] = some cellsF ∧
      (∀ x ∈ cellsF, x.isSome = true) ∧
      ∀ i : Nat, [some (1 : ℚ), none, some 3][i]? = some none →
        cellsF[i]? = some (some ((obsOf [some (1 : ℚ), none, some 3]).sum
          / ((obsOf [some (1 : ℚ), none, some 3]).length : ℚ))) := by
  have hmean : meanList [some (1 : ℚ), none, some 3] = some 2 := by
    simp [meanList, obsOf, List.filterMap_cons]
    norm_num
  have h1 : handle_null_values (fun t => t)
      [("A", [some (1 : ℚ), none, some 3])] "mean" (some ["A"])
      = (fillCol [("A", [some (1 : ℚ), none, some 3])] "A"
           (meanList [some (1 : ℚ), none, some 3]),
         .ok (fillCol [("A", [some (1 : ℚ), none, some 3])] "A"
           (meanList [some (1 : ℚ), none, some 3]))) := rfl
  have hrun : handle_null_values (fun t => t)
      [("A", [some (1 : ℚ), none, some 3])] "mean" (some ["A"])
      = ([("A", [some (1 : ℚ), some 2, some 3])],
         .ok [("A", [some (1 : ℚ), some 2, some 3])]) := by
    rw [h1, hmean]
    rfl
  exact mean_strategy_fills_with_mean (fun t => t)
    [("A", [some (1 : ℚ), none, some 3])] (some ["A"]) "A"
    [some (1 : ℚ), none, some 3] [("A", [some (1 : ℚ), some 2, some 3])]
    [("A", [some (1 : ℚ), some 2, some 3])] hrun (by simp [columns_to_process])
    rfl (by simp [obsOf, List.filterMap_cons])

/-- Claim C9: in the auto loop, the has-missing test and the mode and mean
fill values of a non-MCAR column are read from the original frame df, not
from the working copy, so the value filled into the copy is the statistic of
all original rows — including rows an earlier MCAR drop already removed from
the copy.  Stated over an arbitrary frame: after an MCAR drop on column c1,
the fill applied to column c2 of the copy uses meanList cs2 (respectively
modeList cs2), the statistic of the column's full original cells cs2, applied
to the row-filtered copy of those cells. -/
theorem auto_fill_uses_original_table (df : Table) (c1 c2 : String)
    (cs1 cs2 : List Cell) (sk : Nat)
    (h1 : df.lookup c1 = some cs1) (h2 : df.lookup c2 = some cs2)
    (_hne : c1 ≠ c2) (hnull : hasNull cs2 = true) :
    (∃ res, autoLoop df df [(c1, ⟨1, sk⟩), (c2, ⟨0, 0⟩)] = (res, none) ∧
      res.lookup c2 = some (fillCells
        ((cs2.enum.filter fun p => keepRow df [c1] p.1).map Prod.snd)
        (meanList cs2))) ∧
    (∀ m, modeList cs2 = some m →
      ∃ res, autoLoop df df [(c1, ⟨1, sk⟩), (c2, ⟨0, 1⟩)] = (res, none) ∧
        res.lookup c2 = some (fillCells
          ((cs2.enum.filter fun p => keepRow df [c1] p.1).map Prod.snd)
          (some m))) := by
  have hdrop : dropnaSubset df [c1] = .ok (dropRows df (keepRow df [c1])) := by
    simp [dropnaSubset, h1]
  have hlk2 : (dropRows df (keepRow df [c1])).lookup c2
      = some ((cs2.enum.filter fun p => keepRow df [c1] p.1).map Prod.snd) := by
    rw [lookup_dropRows, h2]
    rfl
  constructor
  · refine ⟨fillCol (dropRows df (keepRow df [c1])) c2 (meanList cs2), ?_, ?_⟩
    · simp [autoLoop, hdrop, h2, hnull, hlk2]
    · rw [lookup_fillCol_self, hlk2]
      rfl
  · intro m hm
    refine ⟨fillCol (dropRows df (keepRow df [c1])) c2 (some m), ?_, ?_⟩
    · simp [autoLoop, hdrop, h2, hnull, hm, hlk2]
    · rw [lookup_fillCol_self, hlk2]
      rfl

theorem auto_fill_uses_original_table_witness :
    (autoLoop [("A", [none, some (1 : ℚ), some 1]), ("B", [some 30, none, some 0])]
        [("A", [none, some (1 : ℚ), some 1]), ("B", [some 30, none, some 0])]
        [("A", ⟨1, 0⟩), ("B", ⟨0, 0⟩)]).1.lookup "B"
      = some [some (15 : ℚ), some 0] ∧
    meanList [none, some (0 : ℚ)] ≠ some 15 := by
  obtain ⟨⟨res, hres, hlook⟩, -⟩ := auto_fill_uses_original_table
    [("A", [none, some (1 : ℚ), some 1]), ("B", [some 30, none, some 0])]
    "A" "B" [none, some (1 : ℚ), some 1] [some (30 : ℚ), none, some 0] 0
    rfl rfl (by decide) rfl
  have hm : meanList [some (30 : ℚ), none, some 0] = some 15 := by
    simp [meanList, obsOf, List.filterMap_cons]
    norm_num
  constructor
  · rw [hres]
    rw [show ((res, (none : Option String)).1) = res from rfl]
    rw [hlook, hm]
    rfl
  · have hz : meanList [none, some (0 : ℚ)] = some 0 := by
      simp [meanList, obsOf, List.filterMap_cons]
    rw [hz]
    intro hx
    rw [Option.some.injEq] at hx
    norm_num at hx

theorem modeStep_pres (t t2 : Table) (c0 c : String) (h : modeStep t c0 = .ok t2)
    (hne : c ≠ c0) : t2.lookup c = t.lookup c := by
  cases hlk : t.lookup c0 with
  | none => simp only [modeStep, hlk] at h; exact Except.noConfusion h
  | some cells =>
    simp only [modeStep, hlk] at h
    by_cases hn : hasNull cells
    · rw [if_pos hn] at h
      cases hml : modeList cells with
      | none => rw [hml] at h; exact Except.noConfusion h
      | some m =>
        rw [hml] at h
        cases h
        exact lookup_fillCol_ne t c0 c (some m) hne
    · rw [if_neg hn] at h
      cases h
      rfl

theorem runCols_mode_stuck (cells0 : List Cell) (c : String)
    (hnull : hasNull cells0 = true) (hobs : obsOf cells0 = []) :
    ∀ (cs : List String) (t : Table), t.lookup c = some cells0 → c ∈ cs →
      ∃ e, (runCols modeStep t cs).2 = some e := by
  intro cs
  induction cs with
  | nil =>
    intro t _ h
    simp at h
  | cons c0 cs ih =>
    intro t hl hmem
    by_cases hc : c0 = c
    · subst hc
      have hml : modeList cells0 = none := modeList_of_obs_nil cells0 hobs
      have hstep : modeStep t c0 = .error idxErr := by
        simp [modeStep, hl, hnull, hml]
      exact ⟨idxErr, by simp [runCols, hstep]⟩
    · have hne : c ≠ c0 := fun hx => hc hx.symm
      cases hstep : modeStep t c0 with
      | error e => exact ⟨e, by simp [runCols, hstep]⟩
      | ok t2 =>
        have hpres := modeStep_pres t t2 c0 c hstep hne
        have hmem2 : c ∈ cs := by
          rcases List.mem_cons.mp hmem with rfl | h2
          · exact absurd rfl hc
          · exact h2
        obtain ⟨e, he⟩ := ih t2 (by rw [hpres]; exact hl) hmem2
        exact ⟨e, by simp [runCols, hstep, he]⟩

theorem autoLoop_mode_stuck (df : Table) (c : String) (cells0 : List Cell)
    (s : MStats) (hcol : df.lookup c = some cells0) (hnull : hasNull cells0 = true)
    (hobs : obsOf cells0 = []) (hmcar : s.mcar ≠ 1) (hskew : s.skewness = 1) :
    ∀ (stats : List (String × MStats)) (dfc : Table), (c, s) ∈ stats →
      ∃ e, (autoLoop df dfc stats).2 = some e := by
  intro stats
  induction stats with
  | nil =>
    intro dfc h
    simp at h
  | cons p rest ih =>
    intro dfc hmem
    rcases List.mem_cons.mp hmem with heq | hmem2
    · subst heq
      have hml : modeList cells0 = none := modeList_of_obs_nil cells0 hobs
      exact ⟨idxErr, by simp [autoLoop, hmcar, hcol, hnull, hskew, hml]⟩
    · obtain ⟨c0, s0⟩ := p
      by_cases h1 : s0.mcar = 1
      · cases hdr : dropnaSubset dfc [c0] with
        | error e => exact ⟨e, by simp [autoLoop, h1, hdr]⟩
        | ok dfc2 =>
          obtain ⟨e, he⟩ := ih dfc2 hmem2
          exact ⟨e, by simp [autoLoop, h1, hdr, he]⟩
      · cases hlk : df.lookup c0 with
        | none => exact ⟨keyErr, by simp [autoLoop, h1, hlk]⟩
        | some cl =>
          by_cases h2 : hasNull cl
          · by_cases h3 : s0.skewness = 1
            · cases hml : modeList cl with
              | none => exact ⟨idxErr, by simp [autoLoop, h1, hlk, h2, h3, hml]⟩
              | some m =>
                cases hlk2 : dfc.lookup c0 with
                | none => exact ⟨keyErr, by simp [autoLoop, h1, hlk, h2, h3, hml, hlk2]⟩
                | some cl2 =>
                  obtain ⟨e, he⟩ := ih (fillCol dfc c0 (some m)) hmem2
                  exact ⟨e, by simp [autoLoop, h1, hlk, h2, h3, hml, hlk2, he]⟩
            · cases hlk2 : dfc.lookup c0 with
              | none => exact ⟨keyErr, by simp [autoLoop, h1, hlk, h2, h3, hlk2]⟩
              | some cl2 =>
                obtain ⟨e, he⟩ := ih (fillCol dfc c0 (meanList cl)) hmem2
                exact ⟨e, by simp [autoLoop, h1, hlk, h2, h3, hlk2, he]⟩
          · obtain ⟨e, he⟩ := ih dfc hmem2
            exact ⟨e, by simp [autoLoop, h1, hlk, h2, he]⟩

/-- Claim C10: a targeted column that exists, has at least one missing cell
and no observed value makes the "mode" strategy raise (mode()[0] on the empty
mode of an all-missing column) instead of returning a frame, and likewise the
mode-fill branch of the auto loop raises whenever the per-column stats mark
such a column non-MCAR and skewed. -/
theorem mode_on_all_missing_column_errors (knn : Table → Table) (df : Table)
    (column_names : Option (List String)) (c : String) (cells0 : List Cell)
    (s : MStats)
    (hc : c ∈ columns_to_process df column_names)
    (hcol : df.lookup c = some cells0)
    (hnull : hasNull cells0 = true) (hobs : obsOf cells0 = [])
    (hmcar : s.mcar ≠ 1) (hskew : s.skewness = 1) :
    (raises (handle_null_values knn df "mode" column_names).2 = true) ∧
    (∀ (dfc : Table) (stats : List (String × MStats)), (c, s) ∈ stats →
      ∃ e, (autoLoop df dfc stats).2 = some e) := by
  constructor
  · have heq : handle_null_values knn df "mode" column_names
        = finish (runCols modeStep df (columns_to_process df column_names)) := rfl
    rw [heq]
    obtain ⟨e, he⟩ := runCols_mode_stuck cells0 c hnull hobs
      (columns_to_process df column_names) df hcol hc
    cases hres : runCols modeStep df (columns_to_process df column_names) with
    | mk t1 e1 =>
      rw [hres] at he
      simp only at he
      subst he
      simp [finish, raises]
  · intro dfc stats hmem
    exact autoLoop_mode_stuck df c cells0 s hcol hnull hobs hmcar hskew stats dfc hmem

theorem mode_on_all_missing_column_errors_witness :
    raises (handle_null_values (fun t => t) [("A", [none, none])] "mode"
      (some ["A"])).2 = true := by
  have h := mode_on_all_missing_column_errors (fun t => t) [("A", [none, none])]
    (some ["A"]) "A" [none, none] ⟨0, 1⟩ (by simp [columns_to_process]) rfl rfl rfl
    (by decide) rfl
  exact h.1
